import Mathlib

/-
Verification of the hybrid retrieval subsystem of the chat-with-pdf
repository.  The definitions below are a shallow embedding of
`app/infra/repositories/pinecone_search_repository.py`,
`app/infra/encoders/bert_text_encoder.py`,
`app/domain/entities/search_entities.py` and `app/domain/models/search.py`.

Modelling conventions:
* Python floats appearing only in comparisons are modelled as rationals `ℚ`.
* External collaborators (Pinecone indexes, the OpenAI embedder, the BERT
  tokenizer, the rerank API, md5) are modelled as components of an `Env`
  record; every network-bound call made along a code path is recorded in an
  accompanying list of `Call`s.
* Fallible Python code (attribute errors, unbound locals, `None`
  comparisons, dict `KeyError`) is modelled with `Except PyErr`.
* Pydantic models use `use_enum_values = True`, so the strategy enum is
  stored as its string value; strategies are therefore modelled as strings
  with the enum members as named string constants.
-/

set_option linter.unusedVariables false

/-- Python runtime errors that the embedded code can raise. -/
inductive PyErr where
  | attributeError
  | keyError
  | typeError
  | valueError
  | unboundLocalError
deriving DecidableEq

/- Embedding of `SearchStrategyType` from `app/domain/models/search.py`: a `str` enum with
three members.  With `use_enum_values = True` pydantic stores the raw string. -/
namespace SearchStrategyType

def DENSE : String := "dense"

def SPARSE : String := "sparse"

def HYBRID : String := "hybrid"

end SearchStrategyType

/-- Embedding of `DocumentChunk` from `app/domain/entities/search_entities.py`.
The pydantic model declares exactly the fields `id`, `content`, `metadata`
and `file_name` (metadata values are modelled as strings).  There is no
`chunk_index` field. -/
structure DocumentChunk where
  id : String
  content : String
  metadata : List (String × String) := []
  file_name : Option String := none
deriving DecidableEq

/-- Python attribute access `doc.chunk_index`.  `DocumentChunk` declares no
`chunk_index` field (and its pydantic config does not allow extra fields, so
the stray `chunk_index=` keyword passed in `_dense_search`/`_sparse_search`
is discarded at construction); the access therefore raises `AttributeError`. -/
def DocumentChunk.chunkIndexAttr (doc : DocumentChunk) : Except PyErr ℚ :=
  .error .attributeError

/-- Embedding of `SearchScore` from `app/domain/models/search.py`: four optional float
components, all defaulting to `None`. -/
structure SearchScore where
  dense_score : Option ℚ := none
  sparse_score : Option ℚ := none
  combined_score : Option ℚ := none
  rerank_score : Option ℚ := none
deriving DecidableEq

/-- Embedding of `RerankedSearchScore` from `app/domain/models/search.py`: a single
required float. -/
structure RerankedSearchScore where
  score : ℚ
deriving DecidableEq

/-- The `Union[SearchScore, RerankedSearchScore]` type of
`SearchResult.score`. -/
inductive ScoreUnion where
  | search (s : SearchScore)
  | reranked (r : RerankedSearchScore)
deriving DecidableEq

/-- Python attribute access `score.dense_score`: a `RerankedSearchScore`
has no such attribute. -/
def ScoreUnion.dense_attr : ScoreUnion → Except PyErr (Option ℚ)
  | .search s => .ok s.dense_score
  | .reranked _ => .error .attributeError

/-- Python attribute access `score.sparse_score`: a `RerankedSearchScore`
has no such attribute. -/
def ScoreUnion.sparse_attr : ScoreUnion → Except PyErr (Option ℚ)
  | .search s => .ok s.sparse_score
  | .reranked _ => .error .attributeError

/-- Embedding of `SearchResult` from `app/domain/entities/search_entities.py`.
`strategy_used` is stored as the string value of the enum
(`use_enum_values = True`). -/
structure SearchResult where
  document : DocumentChunk
  score : ScoreUnion
  strategy_used : String
deriving DecidableEq

/-- Embedding of `SearchQuery` from `app/domain/models/search.py` (validation bounds on
`text` and `max_results` are not needed by the properties below). -/
structure SearchQuery where
  text : String
  max_results : Nat := 5
  strategy : String := SearchStrategyType.HYBRID
  filters : Option (List (String × String)) := none
deriving DecidableEq

/-- One match returned by a Pinecone index query: id, native similarity
score and stored metadata. -/
structure QueryMatch where
  id : String
  score : ℚ
  metadata : List (String × String) := []
deriving DecidableEq

/-- One row of `rerank_result.data` from the Pinecone rerank API:
the echoed document `_id` and the new relevance score. -/
structure RerankRow where
  doc_id : String
  score : ℚ
deriving DecidableEq

/-- A sparse vector: parallel `indices`/`values` arrays. -/
structure SparseVec where
  indices : List Nat := []
  values : List ℚ := []
deriving DecidableEq

/-- Network-bound collaborator calls issued by the repository. -/
inductive Call where
  | encodeDense
  | encodeSparse
  | upsertDense
  | upsertSparse
  | embedQuery
  | tokenize
  | denseQuery
  | sparseQuery
  | rerankApi
deriving DecidableEq

/-- The external collaborators of the repository, as pure oracles:
md5 hashing, the OpenAI query embedder, the BERT tokenizer (returning the
full token-id list including special tokens), the two Pinecone indexes,
the rerank API (fed the document ids) and the two batch encoders. -/
structure Env where
  md5hex : String → String
  embedQuery : String → List ℚ
  tokenize : String → List Nat
  denseQuery : List ℚ → Nat → Option (List (String × String)) → List QueryMatch
  sparseQuery : SparseVec → Nat → Option (List (String × String)) → List QueryMatch
  rerank : String → List String → Nat → List RerankRow
  encodeDense : List String → List (List ℚ)
  encodeSparse : List String → List SparseVec

/-- Python `dict` lookup `d.get(k)` over an insertion-ordered association
list. -/
def dictGet {α : Type} : List (String × α) → String → Option α
  | [], _ => none
  | (k0, v) :: t, k => if k0 = k then some v else dictGet t k

/-- Python `dict` assignment `d[k] = v`: replaces in place (keeping the
original position of the key) or appends a new key at the end. -/
def dictSet {α : Type} : List (String × α) → String → α → List (String × α)
  | [], k, v => [(k, v)]
  | (k0, v0) :: t, k, v =>
    if k0 = k then (k0, v) :: t else (k0, v0) :: dictSet t k v

/-- Python truthiness of an `Optional[float]`: `None` and `0.0` are falsy. -/
def truthyOpt : Option ℚ → Bool
  | none => false
  | some v => v != 0

/-- Python `a > b` on `Optional[float]` operands: comparing with `None`
raises `TypeError`. -/
def pyGt : Option ℚ → Option ℚ → Except PyErr Bool
  | some a, some b => .ok (decide (b < a))
  | _, _ => .error .typeError

/-- The key list of `dict(Counter(inputs))`: the distinct token ids in
first-occurrence order. -/
def counterKeys (inputs : List Nat) : List Nat :=
  inputs.foldl (fun acc x => if x ∈ acc then acc else acc ++ [x]) []

/-- The token-frequency sparse vector built by both
`BertTextEncoder._tokenize_to_sparse_vector`
(`bert_text_encoder.py` lines 24-50) and
`PineconeSearchRepository._generate_sparse_query_vector`
(`pinecone_search_repository.py` lines 228-245): a `Counter` over the token
ids, with ids 101, 102, 103 and 0 skipped, emitted as parallel
indices/values arrays. -/
def sparseHistogram (inputs : List Nat) : SparseVec :=
  let keys := counterKeys inputs
  let kept := keys.filter (fun idx => ¬(idx = 101 ∨ idx = 102 ∨ idx = 103 ∨ idx = 0))
  { indices := kept, values := kept.map (fun idx => ((inputs.count idx : ℕ) : ℚ)) }

/-- Embedding of `BertTextEncoder._tokenize_to_sparse_vector`, with the tokenizer passed
as the oracle producing the `input_ids` list. -/
def tokenizeToSparseVector (tokenize : String → List Nat) (text : String) : SparseVec :=
  sparseHistogram (tokenize text)

/-- Embedding of `PineconeSearchRepository._generate_sparse_query_vector`. -/
def generateSparseQueryVector (env : Env) (query : String) : SparseVec :=
  sparseHistogram (env.tokenize query)

/-- Conversion of one dense-index match into a domain `SearchResult`
(`_dense_search`, lines 168-185): the native score is wrapped as
`dense_score` and the strategy label is `dense`. -/
def denseMatchToResult (m : QueryMatch) : SearchResult :=
  { document :=
      { id := m.id,
        content := (dictGet m.metadata "chunk_text").getD "",
        metadata := m.metadata,
        file_name := dictGet m.metadata "file_name" },
    score := .search { dense_score := some m.score },
    strategy_used := SearchStrategyType.DENSE }

/-- Conversion of one sparse-index match into a domain `SearchResult`
(`_sparse_search`, lines 206-224): the native score is wrapped as
`sparse_score` and the strategy label is `sparse`. -/
def sparseMatchToResult (m : QueryMatch) : SearchResult :=
  { document :=
      { id := m.id,
        content := (dictGet m.metadata "chunk_text").getD "",
        metadata := m.metadata,
        file_name := dictGet m.metadata "file_name" },
    score := .search { sparse_score := some m.score },
    strategy_used := SearchStrategyType.SPARSE }

/-- Embedding of `PineconeSearchRepository._dense_search`: embed the query text, query
the dense index, convert the matches. -/
def denseSearch (env : Env) (query : SearchQuery) : List SearchResult :=
  let query_vector := env.embedQuery query.text
  let results := env.denseQuery query_vector query.max_results query.filters
  results.map denseMatchToResult

/-- The external calls `_dense_search` issues: the query embedding and the
dense index query. -/
def denseSearchCalls : List Call := [.embedQuery, .denseQuery]

/-- Embedding of `PineconeSearchRepository._sparse_search`: tokenize the query text into
a sparse vector, query the sparse index, convert the matches. -/
def sparseSearch (env : Env) (query : SearchQuery) : List SearchResult :=
  let sparse_vector := generateSparseQueryVector env query.text
  let results := env.sparseQuery sparse_vector query.max_results query.filters
  results.map sparseMatchToResult

/-- The external calls `_sparse_search` issues: the tokenizer and the
sparse index query. -/
def sparseSearchCalls : List Call := [.tokenize, .sparseQuery]

/-- Embedding of `PineconeSearchRepository._generate_document_id`: reuse a truthy
(non-empty) `doc.id`, otherwise the md5 hex digest of the content. -/
def generateDocumentId (md5hex : String → String) (doc : DocumentChunk) : String :=
  if doc.id ≠ "" then doc.id else md5hex doc.content

/-- The stored-metadata dict built per chunk in `store_documents`
(lines 103-108).  Reading `doc.chunk_index` raises `AttributeError`
(see `DocumentChunk.chunkIndexAttr`), so the success branch — which would
carry `chunk_text`, `file_name`, `chunk_index` and the caller metadata —
is unreachable (the numeric `chunk_index` value is elided from the
string-valued metadata model there). -/
def storeMetadata (doc : DocumentChunk) : Except PyErr (List (String × String)) :=
  match doc.chunkIndexAttr with
  | .error e => .error e
  | .ok _ =>
    .ok ([("chunk_text", doc.content), ("file_name", doc.file_name.getD "")] ++ doc.metadata)

/-- The per-chunk loop of `store_documents` (lines 100-119): derive the id,
build the metadata dict, collect upload records. -/
def buildUploadVectors (env : Env) : List DocumentChunk → Except PyErr (List (String × List (String × String)))
  | [] => .ok []
  | doc :: docs =>
    let doc_id := generateDocumentId env.md5hex doc
    match storeMetadata doc with
    | .error e => .error e
    | .ok metadata =>
      match buildUploadVectors env docs with
      | .error e => .error e
      | .ok rest => .ok ((doc_id, metadata) :: rest)

/-- Embedding of `PineconeSearchRepository.store_documents`: no-op on empty input,
otherwise encode with both encoders, build the upload records and upsert
into both indexes. -/
def storeDocuments (env : Env) (documents : List DocumentChunk) : Except PyErr Unit × List Call :=
  if documents.isEmpty then (.ok (), [])
  else
    let texts := documents.map (fun d => d.content)
    let dense_encoded := env.encodeDense texts
    let sparse_encoded := env.encodeSparse texts
    match buildUploadVectors env documents with
    | .error e => (.error e, [.encodeDense, .encodeSparse])
    | .ok _ => (.ok (), [.encodeDense, .encodeSparse, .upsertDense, .upsertSparse])

/-- Embedding of `PineconeSearchRepository._get_original_score` (lines 331-337):
`result.score.dense_score if result.score.dense_score else
result.score.sparse_score` — Python truthiness, attribute access can
raise on a reranked score object. -/
def getOriginalScore (result : SearchResult) : Except PyErr (Option ℚ) :=
  match result.score.dense_attr with
  | .error e => .error e
  | .ok d => if truthyOpt d then .ok d else result.score.sparse_attr

/-- One iteration of the merge loop in `_merge_hybrid_results`
(lines 307-327): compute the original score of the candidate (the same
conditional expression as `_get_original_score`), keep it if the id is new
or its score strictly exceeds the recorded one, storing a fresh `hybrid`
result whose `combined_score` is the original score. -/
def mergeStep (dict : List (String × SearchResult)) (result : SearchResult) :
    Except PyErr (List (String × SearchResult)) :=
  match getOriginalScore result with
  | .error e => .error e
  | .ok original_score =>
    let doc_id := result.document.id
    let decision : Except PyErr Bool :=
      match dictGet dict doc_id with
      | none => .ok true
      | some stored =>
        match getOriginalScore stored with
        | .error e => .error e
        | .ok prev => pyGt original_score prev
    match decision with
    | .error e => .error e
    | .ok true =>
      match result.score.dense_attr, result.score.sparse_attr with
      | .ok d, .ok s =>
        .ok (dictSet dict doc_id
          { document := result.document,
            score := .search
              { dense_score := d, sparse_score := s,
                combined_score := original_score, rerank_score := none },
            strategy_used := SearchStrategyType.HYBRID })
      | .error e, _ => .error e
      | .ok _, .error e => .error e
    | .ok false => .ok dict

/-- The `for result in dense_results + sparse_results` loop of
`_merge_hybrid_results`, threading the results dict. -/
def mergeFold (dict : List (String × SearchResult)) :
    List SearchResult → Except PyErr (List (String × SearchResult))
  | [] => .ok dict
  | r :: rs =>
    match mergeStep dict r with
    | .error e => .error e
    | .ok dict2 => mergeFold dict2 rs

/-- Embedding of `PineconeSearchRepository._merge_hybrid_results` (lines 293-329):
fold the concatenated result lists through the dict and return
`list(results_dict.values())`. -/
def mergeHybridResults (dense_results sparse_results : List SearchResult) :
    Except PyErr (List SearchResult) :=
  match mergeFold [] (dense_results ++ sparse_results) with
  | .error e => .error e
  | .ok dict => .ok (dict.map Prod.snd)

/-- The constant `SCORE_THRESHOLD = 0.7` (`pinecone_search_repository.py` line 22). -/
def SCORE_THRESHOLD : ℚ := 7 / 10

/-- The document list built at the top of `rerank_results` (lines 360-371):
each entry reads `result.document.chunk_index`, which raises
`AttributeError`; on success the document ids would be handed to the
rerank API. -/
def buildRerankDocs : List SearchResult → Except PyErr (List String)
  | [] => .ok []
  | r :: rs =>
    match r.document.chunkIndexAttr with
    | .error e => .error e
    | .ok _ =>
      match buildRerankDocs rs with
      | .error e => .error e
      | .ok rest => .ok (r.document.id :: rest)

/-- The dict comprehension binding `results_by_id` in `rerank_results`
(line 387): it maps each document id to its result, with later duplicates
overwriting earlier ones. -/
def resultsById (results : List SearchResult) : List (String × SearchResult) :=
  results.foldl (fun d r => dictSet d r.document.id r) []

/-- The threshold-filter loop of `rerank_results` (lines 389-405): for each
rerank row, look up the original result by id (a missing id is a
`KeyError`), and when the rerank score strictly exceeds `SCORE_THRESHOLD`
emit a result whose score object is replaced by a `RerankedSearchScore`
and whose strategy label is that of the original. -/
def rerankFilter (byId : List (String × SearchResult)) :
    List RerankRow → Except PyErr (List SearchResult)
  | [] => .ok []
  | row :: rows =>
    match dictGet byId row.doc_id with
    | none => .error .keyError
    | some original_result =>
      match rerankFilter byId rows with
      | .error e => .error e
      | .ok rest =>
        if SCORE_THRESHOLD < row.score then
          .ok ({ document := original_result.document,
                 score := .reranked { score := row.score },
                 strategy_used := original_result.strategy_used } :: rest)
        else .ok rest

/-- Embedding of `PineconeSearchRepository.rerank_results` (lines 339-405): early return
on empty input, otherwise build the candidate documents (which reads the
missing `chunk_index` attribute), call the rerank API with
`top_n = top_k or len(documents)` (Python `or`: `None` and `0` fall back to
the length) and apply the threshold filter. -/
def rerankResults (env : Env) (query : String) (results : List SearchResult)
    (top_k : Option Nat) : Except PyErr (List SearchResult) × List Call :=
  if results.isEmpty then (.ok results, [])
  else
    match buildRerankDocs results with
    | .error e => (.error e, [])
    | .ok docIds =>
      let top_n := match top_k with
        | some k => if k ≠ 0 then k else docIds.length
        | none => docIds.length
      let rows := env.rerank query docIds top_n
      (rerankFilter (resultsById results) rows, [.rerankApi])

/-- The dense sub-query constructed inside `hybrid_search` (lines 256-261):
same text, `max_results` and filters, strategy `dense`. -/
def denseSubQuery (query : SearchQuery) : SearchQuery :=
  { text := query.text, max_results := query.max_results,
    strategy := SearchStrategyType.DENSE, filters := query.filters }

/-- The sparse sub-query constructed inside `hybrid_search`
(lines 263-268). -/
def sparseSubQuery (query : SearchQuery) : SearchQuery :=
  { text := query.text, max_results := query.max_results,
    strategy := SearchStrategyType.SPARSE, filters := query.filters }

/-- The merged result set `hybrid_search` computes before reranking:
`_merge_hybrid_results(dense_results, sparse_results)`. -/
def hybridMerged (env : Env) (query : SearchQuery) : Except PyErr (List SearchResult) :=
  mergeHybridResults (denseSearch env (denseSubQuery query))
    (sparseSearch env (sparseSubQuery query))

/-- The calls both branches of `hybrid_search` issue before reranking. -/
def hybridBaseCalls : List Call := denseSearchCalls ++ sparseSearchCalls

/-- Embedding of `PineconeSearchRepository.hybrid_search` (lines 247-291): run both
searches, merge, and — only when `apply_reranking` is set — bind
`sorted_results` to the reranked list; the final
`return sorted_results[: query.max_results]` reads a never-bound local
when `apply_reranking` is false (the sort that once bound it is commented
out), raising `UnboundLocalError`. -/
def hybridSearch (env : Env) (query : SearchQuery) (apply_reranking : Bool := true)
    (top_k : Nat := 5) : Except PyErr (List SearchResult) × List Call :=
  match hybridMerged env query with
  | .error e => (.error e, hybridBaseCalls)
  | .ok merged_results =>
    if apply_reranking then
      match rerankResults env query.text merged_results (some top_k) with
      | (.error e, rc) => (.error e, hybridBaseCalls ++ rc)
      | (.ok sorted_results, rc) =>
        (.ok (sorted_results.take query.max_results), hybridBaseCalls ++ rc)
    else (.error .unboundLocalError, hybridBaseCalls)

/-- Embedding of `PineconeSearchRepository.search` (lines 145-154): dispatch purely on
the strategy value of the query; any unknown value raises `ValueError` without
touching either index. -/
def search (env : Env) (query : SearchQuery) : Except PyErr (List SearchResult) × List Call :=
  if query.strategy = SearchStrategyType.DENSE then
    (.ok (denseSearch env query), denseSearchCalls)
  else if query.strategy = SearchStrategyType.SPARSE then
    (.ok (sparseSearch env query), sparseSearchCalls)
  else if query.strategy = SearchStrategyType.HYBRID then
    hybridSearch env query true 5
  else
    (.error .valueError, [])

/-
Specification-side helpers used to state and prove properties of the merge.
-/

/-- The `dense_score` component of the score object of a result, `none` on a
reranked score. -/
def denseOf (r : SearchResult) : Option ℚ :=
  match r.score with
  | .search s => s.dense_score
  | .reranked _ => none

/-- The `sparse_score` component of the score object of a result, `none` on a
reranked score. -/
def sparseOf (r : SearchResult) : Option ℚ :=
  match r.score with
  | .search s => s.sparse_score
  | .reranked _ => none

/-- The "original score" of a candidate, exactly as the merge computes it:
`dense_score` when truthy, else `sparse_score`; `none` when undefined
(reranked score object, or a falsy dense score with no sparse score). -/
def origOk (r : SearchResult) : Option ℚ :=
  match r.score with
  | .search s => if truthyOpt s.dense_score then s.dense_score else s.sparse_score
  | .reranked _ => none

/-- The `combined_score` component of the score object of a result. -/
def entryCombined (r : SearchResult) : Option ℚ :=
  match r.score with
  | .search s => s.combined_score
  | .reranked _ => none

/-- The result the merge stores when a candidate wins: the document of the candidate and its own score components, `combined_score` set to its original
score, strategy label `hybrid`. -/
def mkHybrid (r : SearchResult) : SearchResult :=
  { document := r.document,
    score := .search
      { dense_score := denseOf r, sparse_score := sparseOf r,
        combined_score := origOk r, rerank_score := none },
    strategy_used := SearchStrategyType.HYBRID }

/-- Shape invariant of every entry the merge dict stores under key `id`:
the document id matches the key, the strategy is `hybrid`, and the score is
a `SearchScore` whose `combined_score` is exactly the original
score of the entry itself (so `_get_original_score` recovers it). -/
def HybridEntry (id : String) (r : SearchResult) : Prop :=
  r.document.id = id ∧ r.strategy_used = SearchStrategyType.HYBRID ∧
    ∃ d s v, r.score = .search
        { dense_score := d, sparse_score := s,
          combined_score := some v, rerank_score := none } ∧
      (if truthyOpt d then d else s) = some v

/-- All entries of the merge dict satisfy the shape invariant. -/
def GoodDict (dict : List (String × SearchResult)) : Prop :=
  ∀ p ∈ dict, HybridEntry p.1 p.2

/-- Replacement condition of the pure merge model: the id is new, or the
stored `combined_score` is strictly below the original score of the candidate. -/
def mergeReplaceCond (dict : List (String × SearchResult)) (r : SearchResult) : Bool :=
  match dictGet dict r.document.id with
  | none => true
  | some stored => decide ((entryCombined stored).getD 0 < (origOk r).getD 0)

/-- The pure model of one merge iteration, defined for candidates whose
original score is defined: replace when the id is new or the stored
`combined_score` is strictly below the original score of the candidate. -/
def mergeStepPure (dict : List (String × SearchResult)) (r : SearchResult) :
    List (String × SearchResult) :=
  if mergeReplaceCond dict r then dictSet dict r.document.id (mkHybrid r) else dict

/-- The pure model of the merge fold. -/
def mergeFoldPure (dict : List (String × SearchResult)) :
    List SearchResult → List (String × SearchResult)
  | [] => dict
  | r :: rs => mergeFoldPure (mergeStepPure dict r) rs

/-- The `combined_score` recorded in the dict for a given identity. -/
def combinedAt (dict : List (String × SearchResult)) (id : String) : Option ℚ :=
  (dictGet dict id).bind entryCombined

/-- Maximum of an optional running value and a new value. -/
def omax (o : Option ℚ) (v : ℚ) : ℚ :=
  match o with
  | none => v
  | some w => max w v

/-- The original scores contributed to a given chunk identity by a result
list. -/
def scoresFor (id : String) (rs : List SearchResult) : List ℚ :=
  rs.filterMap (fun r => if r.document.id = id then origOk r else none)

/-- The surviving result the threshold filter builds from one rerank row
(the lookup is total here; the filter itself raises `KeyError` on a missing
id). -/
def rerankedOf (byId : List (String × SearchResult)) (row : RerankRow) : SearchResult :=
  let orig := (dictGet byId row.doc_id).getD
    { document := { id := "", content := "" },
      score := .search {}, strategy_used := SearchStrategyType.HYBRID }
  { document := orig.document,
    score := .reranked { score := row.score },
    strategy_used := orig.strategy_used }

/-
Concrete inputs used by witnesses and counterexamples.
-/

/-- An environment whose indexes return no matches. -/
def env0 : Env :=
  { md5hex := fun s => String.append "md5:" s,
    embedQuery := fun _ => [1],
    tokenize := fun _ => [101, 7, 7, 102],
    denseQuery := fun _ _ _ => [],
    sparseQuery := fun _ _ _ => [],
    rerank := fun _ ids _ => ids.map (fun i => { doc_id := i, score := 1 }),
    encodeDense := fun ts => ts.map (fun _ => [1]),
    encodeSparse := fun ts => ts.map (fun _ => {}) }

/-- An environment whose dense index returns a single match with id `a`
and whose reranker scores everything below the threshold. -/
def env1 : Env :=
  { md5hex := fun s => String.append "md5:" s,
    embedQuery := fun _ => [1],
    tokenize := fun _ => [101, 7, 7, 102],
    denseQuery := fun _ _ _ => [{ id := "a", score := 1, metadata := [] }],
    sparseQuery := fun _ _ _ => [],
    rerank := fun _ ids _ => ids.map (fun i => { doc_id := i, score := 1 / 2 }),
    encodeDense := fun ts => ts.map (fun _ => [1]),
    encodeSparse := fun ts => ts.map (fun _ => {}) }

/-- A hybrid query used by witnesses. -/
def qHybrid : SearchQuery := { text := "what is a mammal" }

/-- A dense-strategy query. -/
def qDense : SearchQuery := { text := "what is a mammal", strategy := SearchStrategyType.DENSE }

/-- A sparse-strategy query. -/
def qSparse : SearchQuery := { text := "what is a mammal", strategy := SearchStrategyType.SPARSE }

/-- A query carrying a strategy value outside the enum. -/
def qBad : SearchQuery := { text := "what is a mammal", strategy := "keyword" }

/-- A document chunk with id `a`. -/
def chunkA : DocumentChunk := { id := "a", content := "cats are mammals" }

/-- A document chunk with id `b`. -/
def chunkB : DocumentChunk := { id := "b", content := "dogs are mammals" }

/-- A dense search result for `chunkA` carrying dense score `v`. -/
def denseRes (v : ℚ) : SearchResult :=
  { document := chunkA, score := .search { dense_score := some v },
    strategy_used := SearchStrategyType.DENSE }

/-- A sparse search result for `chunkA` carrying sparse score `w`. -/
def sparseRes (w : ℚ) : SearchResult :=
  { document := chunkA, score := .search { sparse_score := some w },
    strategy_used := SearchStrategyType.SPARSE }

/-- A merged hybrid result for a chunk, used by rerank-filter witnesses. -/
def hybridRes (c : DocumentChunk) (v : ℚ) : SearchResult :=
  { document := c,
    score := .search { dense_score := some v, combined_score := some v },
    strategy_used := SearchStrategyType.HYBRID }

/-- A document chunk with id `c`. -/
def chunkC : DocumentChunk := { id := "c", content := "birds are not mammals" }

/-- A document chunk with id `d`. -/
def chunkD : DocumentChunk := { id := "d", content := "fish are not mammals" }

/-- Four merged hybrid candidates, for the threshold-filter example of the spec. -/
def hybrid4 : List SearchResult :=
  [hybridRes chunkA 1, hybridRes chunkB 1, hybridRes chunkC 1, hybridRes chunkD 1]

/-- The example rerank scores of the spec [0.9, 0.75, 0.65, 0.3] for the four
candidates. -/
def rows4 : List RerankRow :=
  [{ doc_id := "a", score := 9 / 10 }, { doc_id := "b", score := 3 / 4 },
   { doc_id := "c", score := 13 / 20 }, { doc_id := "d", score := 3 / 10 }]

/-- The survivor of the threshold filter for the 0.9-scored candidate. -/
def survA : SearchResult :=
  { document := chunkA, score := .reranked { score := 9 / 10 },
    strategy_used := SearchStrategyType.HYBRID }

/-- The survivor of the threshold filter for the 0.75-scored candidate. -/
def survB : SearchResult :=
  { document := chunkB, score := .reranked { score := 3 / 4 },
    strategy_used := SearchStrategyType.HYBRID }

/-- The merged entry `hybridMerged env1 qHybrid` produces for the single
dense match of `env1`. -/
def mergedA : SearchResult :=
  { document := { id := "a", content := "" },
    score := .search
      { dense_score := some 1, sparse_score := none,
        combined_score := some 1, rerank_score := none },
    strategy_used := SearchStrategyType.HYBRID }

/-- The entry the merge stores for a dense result whose native score is
exactly 0: Python truthiness routes the original score to the (absent)
sparse component, so `combined_score` ends up `None`. -/
def mergedZeroEntry : SearchResult :=
  { document := chunkA,
    score := .search
      { dense_score := some 0, sparse_score := none,
        combined_score := none, rerank_score := none },
    strategy_used := SearchStrategyType.HYBRID }

/-- A tokenizer oracle for a text made of a single out-of-vocabulary word:
BERT wraps it as `[CLS] [UNK] [SEP]`, i.e. token ids `[101, 100, 102]`
(in `bert-base-multilingual-uncased`, `[PAD]` is 0, `[UNK]` is 100,
`[CLS]` is 101, `[SEP]` is 102 and `[MASK]` is 103). -/
def unkTokenizer : String → List Nat := fun _ => [101, 100, 102]

/-- A single rerank row whose score falls below the 0.7 threshold. -/
def lowRows : List RerankRow := [{ doc_id := "a", score := 1 / 2 }]

/-- The merged entry for a chunk found by both dense (0.4) and sparse (0.9)
search: the own components of the replacing sparse result overwrite the stored
entry wholesale, so the dense component is gone. -/
def mergedPointFourNine : SearchResult :=
  { document := chunkA,
    score := .search
      { dense_score := none, sparse_score := some (9 / 10),
        combined_score := some (9 / 10), rerank_score := none },
    strategy_used := SearchStrategyType.HYBRID }

deriving instance DecidableEq for Except

/-
Helper lemmas about the merge dict.
-/

theorem dictGet_dictSet {α : Type} (d : List (String × α)) (k k' : String) (v : α) :
    dictGet (dictSet d k v) k' = if k = k' then some v else dictGet d k' := by
  induction d with
  | nil => simp [dictGet, dictSet]
  | cons p t ih =>
    obtain ⟨k0, v0⟩ := p
    by_cases h0 : k0 = k
    · subst h0
      simp only [dictSet, if_pos rfl, dictGet]
      by_cases h1 : k0 = k' <;> simp [h1]
    · simp only [dictSet, if_neg h0, dictGet]
      by_cases h1 : k0 = k'
      · subst h1
        rw [if_neg (fun h : k = k0 => h0 h.symm)]
        simp
      · simp [h1, ih]

theorem dictGet_mem {α : Type} (d : List (String × α)) (k : String) (v : α)
    (h : dictGet d k = some v) : (k, v) ∈ d := by
  induction d with
  | nil => simp [dictGet] at h
  | cons p t ih =>
    obtain ⟨k0, v0⟩ := p
    by_cases h0 : k0 = k
    · subst h0
      simp [dictGet] at h
      simp [h]
    · simp [dictGet, h0] at h
      exact List.mem_cons_of_mem _ (ih h)

theorem snd_mem_of_dictGet {α : Type} (d : List (String × α)) (k : String) (v : α)
    (h : dictGet d k = some v) : v ∈ d.map Prod.snd := by
  exact List.mem_map.mpr ⟨(k, v), dictGet_mem d k v h, rfl⟩

theorem goodDict_get (dict : List (String × SearchResult)) (id : String) (r : SearchResult)
    (hd : GoodDict dict) (h : dictGet dict id = some r) : HybridEntry id r :=
  hd (id, r) (dictGet_mem dict id r h)

theorem mem_dictSet {α : Type} (d : List (String × α)) (k : String) (v : α) (p : String × α)
    (h : p ∈ dictSet d k v) : p ∈ d ∨ p = (k, v) := by
  induction d with
  | nil =>
    simp [dictSet] at h
    simp [h]
  | cons q t ih =>
    obtain ⟨k0, v0⟩ := q
    by_cases h0 : k0 = k
    · subst h0
      simp only [dictSet, if_pos rfl] at h
      rcases List.mem_cons.mp h with h | h
      · right; simp [h]
      · left; exact List.mem_cons_of_mem _ h
    · simp only [dictSet, if_neg h0] at h
      rcases List.mem_cons.mp h with h | h
      · left; simp [h]
      · rcases ih h with h | h
        · left; exact List.mem_cons_of_mem _ h
        · right; exact h

theorem goodDict_dictSet (dict : List (String × SearchResult)) (k : String) (v : SearchResult)
    (hd : GoodDict dict) (hv : HybridEntry k v) : GoodDict (dictSet dict k v) := by
  intro p hp
  rcases mem_dictSet dict k v p hp with h | h
  · exact hd p h
  · subst h
    exact hv

theorem origOk_eq_sel (r : SearchResult) :
    (if truthyOpt (denseOf r) then denseOf r else sparseOf r) = origOk r := by
  cases h : r.score <;> simp [denseOf, sparseOf, origOk, h, truthyOpt]

theorem getOriginalScore_search (r : SearchResult) (sc : SearchScore)
    (h : r.score = .search sc) : getOriginalScore r = .ok (origOk r) := by
  simp only [getOriginalScore, h, ScoreUnion.dense_attr, origOk]
  split <;> simp [ScoreUnion.sparse_attr]

theorem hybridEntry_score (id : String) (r : SearchResult) (h : HybridEntry id r) :
    ∃ v, getOriginalScore r = .ok (some v) ∧ entryCombined r = some v := by
  obtain ⟨hid, hstrat, d, s, v, hscore, hsel⟩ := h
  refine ⟨v, ?_, ?_⟩
  · simp only [getOriginalScore, hscore, ScoreUnion.dense_attr]
    by_cases ht : truthyOpt d = true
    · rw [if_pos ht] at hsel
      rw [if_pos ht, hsel]
    · rw [if_neg ht] at hsel
      rw [if_neg ht]
      simp [ScoreUnion.sparse_attr, hsel]
  · simp [entryCombined, hscore]

theorem score_search_of_origOk (r : SearchResult) (v : ℚ) (hv : origOk r = some v) :
    ∃ sc, r.score = .search sc := by
  cases h : r.score with
  | search s => exact ⟨s, rfl⟩
  | reranked q => simp [origOk, h] at hv

theorem mergeStep_eq_pure (dict : List (String × SearchResult)) (r : SearchResult) (v : ℚ)
    (hv : origOk r = some v) (hd : GoodDict dict) :
    mergeStep dict r = .ok (mergeStepPure dict r) := by
  obtain ⟨sc, hsc⟩ := score_search_of_origOk r v hv
  have hg : getOriginalScore r = .ok (some v) := by
    rw [getOriginalScore_search r sc hsc, hv]
  have hda : r.score.dense_attr = .ok sc.dense_score := by rw [hsc]; rfl
  have hsa : r.score.sparse_attr = .ok sc.sparse_score := by rw [hsc]; rfl
  have hmk : mkHybrid r =
      { document := r.document,
        score := .search
          { dense_score := sc.dense_score, sparse_score := sc.sparse_score,
            combined_score := some v, rerank_score := none },
        strategy_used := SearchStrategyType.HYBRID } := by
    simp [mkHybrid, hv, denseOf, sparseOf, hsc]
  simp only [mergeStep, hg, hda, hsa, mergeStepPure, mergeReplaceCond, hv, Option.getD_some]
  cases hget : dictGet dict r.document.id with
  | none =>
    simp [hget, hmk]
  | some stored =>
    obtain ⟨w, hw, hcw⟩ := hybridEntry_score _ _ (goodDict_get dict _ stored hd hget)
    simp only [hget, hw, hcw, pyGt, Option.getD_some]
    by_cases hlt : w < v
    · simp [hlt, hmk]
    · simp [hlt]

theorem goodDict_mergeStepPure (dict : List (String × SearchResult)) (r : SearchResult) (v : ℚ)
    (hv : origOk r = some v) (hd : GoodDict dict) : GoodDict (mergeStepPure dict r) := by
  unfold mergeStepPure
  by_cases hc : mergeReplaceCond dict r = true
  · rw [if_pos hc]
    apply goodDict_dictSet dict _ _ hd
    refine ⟨rfl, rfl, denseOf r, sparseOf r, v, ?_, ?_⟩
    · simp [mkHybrid, hv]
    · rw [origOk_eq_sel, hv]
  · rw [if_neg hc]
    exact hd

theorem combinedAt_dictSet (dict : List (String × SearchResult)) (k : String)
    (v : SearchResult) (id : String) :
    combinedAt (dictSet dict k v) id =
      if k = id then entryCombined v else combinedAt dict id := by
  simp only [combinedAt, dictGet_dictSet]
  split <;> simp

theorem combinedAt_mergeStepPure (dict : List (String × SearchResult)) (r : SearchResult)
    (v : ℚ) (id : String) (hv : origOk r = some v) (hd : GoodDict dict) :
    combinedAt (mergeStepPure dict r) id =
      if r.document.id = id then some (omax (combinedAt dict id) v) else combinedAt dict id := by
  have hcmk : entryCombined (mkHybrid r) = some v := by simp [entryCombined, mkHybrid, hv]
  unfold mergeStepPure mergeReplaceCond
  cases hget : dictGet dict r.document.id with
  | none =>
    rw [if_pos rfl, combinedAt_dictSet]
    by_cases hid : r.document.id = id
    · rw [if_pos hid, if_pos hid, hcmk]
      have hca : combinedAt dict id = none := by
        rw [← hid]
        simp [combinedAt, hget]
      rw [hca]
      rfl
    · rw [if_neg hid, if_neg hid]
  | some stored =>
    obtain ⟨w, hw, hcw⟩ := hybridEntry_score _ _ (goodDict_get dict _ stored hd hget)
    have hca : combinedAt dict r.document.id = some w := by simp [combinedAt, hget, hcw]
    simp only [hcw, hv, Option.getD_some]
    by_cases hlt : w < v
    · rw [if_pos (by simpa using hlt), combinedAt_dictSet]
      by_cases hid : r.document.id = id
      · rw [if_pos hid, if_pos hid, hcmk, ← hid, hca]
        simp [omax, max_eq_right (le_of_lt hlt)]
      · rw [if_neg hid, if_neg hid]
    · rw [if_neg (by simpa using hlt)]
      by_cases hid : r.document.id = id
      · rw [if_pos hid, ← hid, hca]
        simp [omax, max_eq_left (le_of_not_lt hlt)]
      · rw [if_neg hid]

theorem mergeFold_eq_pure (rs : List SearchResult) : ∀ (dict : List (String × SearchResult)),
    (∀ r ∈ rs, (origOk r).isSome) → GoodDict dict →
    mergeFold dict rs = .ok (mergeFoldPure dict rs) ∧ GoodDict (mergeFoldPure dict rs) := by
  induction rs with
  | nil =>
    intro dict h hd
    exact ⟨rfl, hd⟩
  | cons r rs ih =>
    intro dict h hd
    obtain ⟨v, hv⟩ := Option.isSome_iff_exists.mp (h r (List.mem_cons_self r rs))
    have hstep := mergeStep_eq_pure dict r v hv hd
    have hgood := goodDict_mergeStepPure dict r v hv hd
    have hrest := ih (mergeStepPure dict r) (fun x hx => h x (List.mem_cons_of_mem r hx)) hgood
    constructor
    · simp only [mergeFold, hstep]
      exact hrest.1
    · exact hrest.2

theorem combinedAt_mergeFoldPure (rs : List SearchResult) :
    ∀ (dict : List (String × SearchResult)) (id : String),
    (∀ r ∈ rs, (origOk r).isSome) → GoodDict dict →
    combinedAt (mergeFoldPure dict rs) id =
      rs.foldl (fun acc r => if r.document.id = id then some (omax acc ((origOk r).getD 0)) else acc)
        (combinedAt dict id) := by
  induction rs with
  | nil =>
    intro dict id h hd
    rfl
  | cons r rs ih =>
    intro dict id h hd
    obtain ⟨v, hv⟩ := Option.isSome_iff_exists.mp (h r (List.mem_cons_self r rs))
    have hgood := goodDict_mergeStepPure dict r v hv hd
    have hstep := combinedAt_mergeStepPure dict r v id hv hd
    simp only [mergeFoldPure, List.foldl_cons]
    rw [ih (mergeStepPure dict r) id (fun x hx => h x (List.mem_cons_of_mem r hx)) hgood, hstep, hv]
    rfl

theorem foldl_eq_scoresFor (id : String) (rs : List SearchResult) :
    ∀ (acc : Option ℚ), (∀ r ∈ rs, (origOk r).isSome) →
    rs.foldl (fun acc r => if r.document.id = id then some (omax acc ((origOk r).getD 0)) else acc) acc =
      (scoresFor id rs).foldl (fun o v => some (omax o v)) acc := by
  induction rs with
  | nil =>
    intro acc h
    rfl
  | cons r rs ih =>
    intro acc h
    obtain ⟨v, hv⟩ := Option.isSome_iff_exists.mp (h r (List.mem_cons_self r rs))
    by_cases hid : r.document.id = id
    · have hsf : scoresFor id (r :: rs) = v :: scoresFor id rs := by
        simp [scoresFor, List.filterMap_cons, hid, hv]
      rw [hsf]
      simp only [List.foldl_cons, if_pos hid, hv, Option.getD_some]
      exact ih _ (fun x hx => h x (List.mem_cons_of_mem r hx))
    · have hsf : scoresFor id (r :: rs) = scoresFor id rs := by
        simp [scoresFor, List.filterMap_cons, hid]
      rw [hsf]
      simp only [List.foldl_cons, if_neg hid]
      exact ih _ (fun x hx => h x (List.mem_cons_of_mem r hx))

theorem foldl_omax_some (l : List ℚ) : ∀ w : ℚ,
    l.foldl (fun o v => some (omax o v)) (some w) = some (l.foldl max w) := by
  induction l with
  | nil =>
    intro w
    rfl
  | cons v l ih =>
    intro w
    simp only [List.foldl_cons]
    simpa [omax] using ih (max w v)

theorem foldl_max_spec (l : List ℚ) : ∀ w : ℚ,
    l.foldl max w ∈ w :: l ∧ w ≤ l.foldl max w ∧ ∀ x ∈ l, x ≤ l.foldl max w := by
  induction l with
  | nil =>
    intro w
    exact ⟨List.mem_cons_self w [], le_refl w, by simp⟩
  | cons v l ih =>
    intro w
    obtain ⟨hmem, hle, hub⟩ := ih (max w v)
    refine ⟨?_, ?_, ?_⟩
    · simp only [List.foldl_cons]
      rcases List.mem_cons.mp hmem with h | h
      · rcases max_choice w v with hm | hm
        · rw [h, hm]
          exact List.mem_cons_self _ _
        · rw [h, hm]
          exact List.mem_cons_of_mem _ (List.mem_cons_self _ _)
      · exact List.mem_cons_of_mem _ (List.mem_cons_of_mem _ h)
    · simp only [List.foldl_cons]
      exact le_trans (le_max_left w v) hle
    · intro x hx
      simp only [List.foldl_cons]
      rcases List.mem_cons.mp hx with h | h
      · subst h
        exact le_trans (le_max_right w x) hle
      · exact hub x h

theorem scoresFor_mem (id : String) (rs : List SearchResult) (r : SearchResult) (v : ℚ)
    (hr : r ∈ rs) (hid : r.document.id = id) (hv : origOk r = some v) :
    v ∈ scoresFor id rs := by
  simp only [scoresFor, List.mem_filterMap]
  exact ⟨r, hr, by simp [hid, hv]⟩

/-- C1 (amended): provided the original score of every candidate is defined
under Python truthiness (in particular no dense result carries a native
score of exactly 0), the merge succeeds, and for every chunk identity in
either result set the `combined_score` of the merged entry is one of the
original scores seen for that identity and an upper bound of all of them —
scores are only compared, never summed or averaged.  Moreover an
already-recorded entry is left unchanged when the new original
score does not strictly exceed the recorded `combined_score`, and is
replaced exactly when it does. -/
theorem merge_combined_score_is_max (dense_results sparse_results : List SearchResult)
    (H : ∀ r ∈ dense_results ++ sparse_results, (origOk r).isSome) :
    (∃ out, mergeHybridResults dense_results sparse_results = .ok out ∧
      ∀ id ∈ (dense_results ++ sparse_results).map (fun r => r.document.id),
        ∃ rm m, rm ∈ out ∧ rm.document.id = id ∧ entryCombined rm = some m ∧
          m ∈ scoresFor id (dense_results ++ sparse_results) ∧
          ∀ x ∈ scoresFor id (dense_results ++ sparse_results), x ≤ m) ∧
    (∀ (dict : List (String × SearchResult)) (r stored : SearchResult) (v w : ℚ),
      GoodDict dict → origOk r = some v → dictGet dict r.document.id = some stored →
      entryCombined stored = some w →
      (v ≤ w → mergeStep dict r = .ok dict) ∧
      (w < v → mergeStep dict r = .ok (dictSet dict r.document.id (mkHybrid r)))) := by
  have hnil : GoodDict ([] : List (String × SearchResult)) := by
    intro p hp
    simp at hp
  constructor
  · obtain ⟨hfold, hgood⟩ := mergeFold_eq_pure (dense_results ++ sparse_results) [] H hnil
    refine ⟨(mergeFoldPure [] (dense_results ++ sparse_results)).map Prod.snd, ?_, ?_⟩
    · simp [mergeHybridResults, hfold]
    · intro id hid
      obtain ⟨r, hr, hrid⟩ := List.mem_map.mp hid
      obtain ⟨v, hv⟩ := Option.isSome_iff_exists.mp (H r hr)
      have hca := combinedAt_mergeFoldPure (dense_results ++ sparse_results) [] id H hnil
      rw [foldl_eq_scoresFor id (dense_results ++ sparse_results) _ H] at hca
      have h0 : combinedAt ([] : List (String × SearchResult)) id = none := rfl
      rw [h0] at hca
      have hvmem : v ∈ scoresFor id (dense_results ++ sparse_results) :=
        scoresFor_mem id (dense_results ++ sparse_results) r v hr hrid hv
      cases hsf : scoresFor id (dense_results ++ sparse_results) with
      | nil =>
        rw [hsf] at hvmem
        simp at hvmem
      | cons a l =>
        rw [hsf, List.foldl_cons] at hca
        simp only [show omax none a = a from rfl] at hca
        rw [foldl_omax_some] at hca
        obtain ⟨hmem, hle, hub⟩ := foldl_max_spec l a
        obtain ⟨rm, hrm, hcrm⟩ : ∃ rm,
            dictGet (mergeFoldPure [] (dense_results ++ sparse_results)) id = some rm ∧
              entryCombined rm = some (l.foldl max a) := by
          cases hget : dictGet (mergeFoldPure [] (dense_results ++ sparse_results)) id with
          | none =>
            simp only [combinedAt, hget, Option.none_bind] at hca
            exact Option.noConfusion hca
          | some rm =>
            simp only [combinedAt, hget, Option.some_bind] at hca
            exact ⟨rm, rfl, hca⟩
        refine ⟨rm, l.foldl max a, snd_mem_of_dictGet _ id rm hrm,
          (goodDict_get _ id rm hgood hrm).1, hcrm, hmem, ?_⟩
        intro x hx
        rcases List.mem_cons.mp hx with h | h
        · subst h
          exact hle
        · exact hub x h
  · intro dict r stored v w hgd hv hget hcw
    have hstep := mergeStep_eq_pure dict r v hv hgd
    have hcond : mergeReplaceCond dict r = decide (w < v) := by
      simp [mergeReplaceCond, hget, hcw, hv]
    constructor
    · intro hle
      rw [hstep]
      have hfalse : mergeReplaceCond dict r = false := by
        rw [hcond]
        simp [not_lt.mpr hle]
      simp [mergeStepPure, hfalse]
    · intro hlt
      rw [hstep]
      have htrue : mergeReplaceCond dict r = true := by
        rw [hcond]
        simp [hlt]
      simp [mergeStepPure, htrue]

/-- C1 counterexample: a dense-only result whose native score is exactly 0
falsifies the claim as stated — the only original score seen for identity
`a` is the present `dense_score` 0, yet the resulting
`combined_score` is `None`, because Python truthiness treats the 0.0
dense score as absent. -/
theorem merge_zero_dense_score_cex :
    mergeHybridResults [denseRes 0] [] = .ok [mergedZeroEntry] ∧
      denseOf mergedZeroEntry = some 0 ∧ entryCombined mergedZeroEntry = none := by
  refine ⟨by decide, rfl, rfl⟩

/-- Witness for the amended C1 theorem: a dense score 1 and a sparse score
2 for the same chunk identity. -/
theorem merge_combined_score_is_max_witness :
    (∀ r ∈ [denseRes 1] ++ [sparseRes 2], (origOk r).isSome) ∧
    ((∃ out, mergeHybridResults [denseRes 1] [sparseRes 2] = .ok out ∧
      ∀ id ∈ ([denseRes 1] ++ [sparseRes 2]).map (fun r => r.document.id),
        ∃ rm m, rm ∈ out ∧ rm.document.id = id ∧ entryCombined rm = some m ∧
          m ∈ scoresFor id ([denseRes 1] ++ [sparseRes 2]) ∧
          ∀ x ∈ scoresFor id ([denseRes 1] ++ [sparseRes 2]), x ≤ m) ∧
    (∀ (dict : List (String × SearchResult)) (r stored : SearchResult) (v w : ℚ),
      GoodDict dict → origOk r = some v → dictGet dict r.document.id = some stored →
      entryCombined stored = some w →
      (v ≤ w → mergeStep dict r = .ok dict) ∧
      (w < v → mergeStep dict r = .ok (dictSet dict r.document.id (mkHybrid r))))) :=
  ⟨by decide, merge_combined_score_is_max [denseRes 1] [sparseRes 2] (by decide)⟩

/-- C3 counterexample: for a chunk returned by both dense (score 0.4) and
sparse (score 0.9) search, the merged record does NOT preserve both
components: its `dense_score` is `None` (the own fields of the replacing sparse result overwrite the stored entry), refuting the claim that
`dense_score`/`sparse_score` are both present on the merged record. -/
theorem merge_preserve_both_components_cex :
    mergeHybridResults [denseRes (2 / 5)] [sparseRes (9 / 10)] = .ok [mergedPointFourNine] ∧
      denseOf mergedPointFourNine = none ∧
      entryCombined mergedPointFourNine = some (9 / 10) := by
  refine ⟨?_, rfl, rfl⟩
  norm_num [mergeHybridResults, mergeFold, mergeStep, getOriginalScore,
    ScoreUnion.dense_attr, ScoreUnion.sparse_attr, truthyOpt, dictGet, dictSet, pyGt,
    denseRes, sparseRes, mergedPointFourNine]

/-- C3 (amended): for a chunk found by both strategies (dense score `v`,
nonzero, and sparse score `w`), the `combined_score` of the merged entry is the
higher original score and its strategy label is `hybrid`, but the entry
carries only the own score components of the winning result: the sparse
fields when `v < w`, the dense fields otherwise. -/
theorem merge_both_found_keeps_winner (d1 d2 : DocumentChunk) (v w : ℚ)
    (hv : v ≠ 0) (hid : d2.id = d1.id) :
    mergeHybridResults
      [{ document := d1, score := .search { dense_score := some v },
         strategy_used := SearchStrategyType.DENSE }]
      [{ document := d2, score := .search { sparse_score := some w },
         strategy_used := SearchStrategyType.SPARSE }] =
    .ok [if v < w then
      { document := d2,
        score := .search
          { dense_score := none, sparse_score := some w,
            combined_score := some w, rerank_score := none },
        strategy_used := SearchStrategyType.HYBRID }
    else
      { document := d1,
        score := .search
          { dense_score := some v, sparse_score := none,
            combined_score := some v, rerank_score := none },
        strategy_used := SearchStrategyType.HYBRID }] := by
  by_cases hlt : v < w
  · simp [mergeHybridResults, mergeFold, mergeStep, getOriginalScore,
      ScoreUnion.dense_attr, ScoreUnion.sparse_attr, truthyOpt, hv, dictGet, dictSet,
      pyGt, hid, hlt]
  · simp [mergeHybridResults, mergeFold, mergeStep, getOriginalScore,
      ScoreUnion.dense_attr, ScoreUnion.sparse_attr, truthyOpt, hv, dictGet, dictSet,
      pyGt, hid, hlt]

/-- Witness for the amended C3 theorem at dense 0.4 / sparse 0.9. -/
theorem merge_both_found_keeps_winner_witness :
    ((2 : ℚ) / 5 ≠ 0) ∧ chunkA.id = chunkA.id ∧
    mergeHybridResults
      [{ document := chunkA, score := .search { dense_score := some (2 / 5) },
         strategy_used := SearchStrategyType.DENSE }]
      [{ document := chunkA, score := .search { sparse_score := some (9 / 10) },
         strategy_used := SearchStrategyType.SPARSE }] =
    .ok [if (2 : ℚ) / 5 < 9 / 10 then
      { document := chunkA,
        score := .search
          { dense_score := none, sparse_score := some (9 / 10),
            combined_score := some (9 / 10), rerank_score := none },
        strategy_used := SearchStrategyType.HYBRID }
    else
      { document := chunkA,
        score := .search
          { dense_score := some (2 / 5), sparse_score := none,
            combined_score := some (2 / 5), rerank_score := none },
        strategy_used := SearchStrategyType.HYBRID }] :=
  ⟨by norm_num, rfl, merge_both_found_keeps_winner chunkA chunkA (2 / 5) (9 / 10) (by norm_num) rfl⟩

/-- C2: the threshold filter applied to the rerank response keeps exactly
those candidates whose rerank score strictly exceeds the fixed
`SCORE_THRESHOLD` (0.7); the score object of each survivor is replaced entirely
by the bare rerank score (a `RerankedSearchScore`, carrying none of the
dense/sparse/combined components), and its strategy label is that of the
original — `hybrid` whenever the candidates are merged hybrid results. -/
theorem rerank_threshold_filter (byId : List (String × SearchResult)) (rows : List RerankRow)
    (hids : ∀ row ∈ rows, (dictGet byId row.doc_id).isSome)
    (hhyb : ∀ p ∈ byId, p.2.strategy_used = SearchStrategyType.HYBRID) :
    rerankFilter byId rows =
      .ok ((rows.filter (fun row => decide (SCORE_THRESHOLD < row.score))).map (rerankedOf byId)) ∧
    ∀ r ∈ (rows.filter (fun row => decide (SCORE_THRESHOLD < row.score))).map (rerankedOf byId),
      r.strategy_used = SearchStrategyType.HYBRID ∧
      ∃ q : RerankRow, SCORE_THRESHOLD < q.score ∧ r.score = .reranked { score := q.score } := by
  have main : ∀ rs : List RerankRow, (∀ row ∈ rs, (dictGet byId row.doc_id).isSome) →
      rerankFilter byId rs =
        .ok ((rs.filter (fun row => decide (SCORE_THRESHOLD < row.score))).map (rerankedOf byId)) := by
    intro rs
    induction rs with
    | nil =>
      intro _
      rfl
    | cons row rs ih =>
      intro h
      obtain ⟨orig, horig⟩ := Option.isSome_iff_exists.mp (h row (List.mem_cons_self row rs))
      have hrest := ih (fun x hx => h x (List.mem_cons_of_mem row hx))
      simp only [rerankFilter, horig, hrest, List.filter_cons]
      by_cases hth : SCORE_THRESHOLD < row.score
      · simp [hth, rerankedOf, horig]
      · simp [hth]
  refine ⟨main rows hids, ?_⟩
  intro r hr
  obtain ⟨row, hrow, hrret⟩ := List.mem_map.mp hr
  have hfil := List.mem_filter.mp hrow
  obtain ⟨orig, horig⟩ := Option.isSome_iff_exists.mp (hids row hfil.1)
  refine ⟨?_, row, by simpa using hfil.2, ?_⟩
  · have hstrat : (rerankedOf byId row).strategy_used = orig.strategy_used := by
      simp [rerankedOf, horig]
    rw [← hrret, hstrat]
    exact hhyb (row.doc_id, orig) (dictGet_mem byId row.doc_id orig horig)
  · rw [← hrret]
    simp [rerankedOf]

/-- Witness for C2: the example scores of the spec, [0.9, 0.75, 0.65, 0.3] on
four hybrid candidates — only the first two survive the 0.7 threshold,
each carrying a bare rerank score and the `hybrid` label. -/
theorem rerank_threshold_filter_witness :
    (∀ row ∈ rows4, (dictGet (resultsById hybrid4) row.doc_id).isSome) ∧
    rerankFilter (resultsById hybrid4) rows4 = .ok [survA, survB] := by
  refine ⟨by decide, ?_⟩
  have h := (rerank_threshold_filter (resultsById hybrid4) rows4 (by decide) (by decide)).1
  rw [h]
  norm_num [rows4, SCORE_THRESHOLD, rerankedOf, resultsById, hybrid4, hybridRes,
    dictSet, dictGet, survA, survB, chunkA, chunkB, chunkC, chunkD]
  decide

/-- C4: `DocumentChunk` declares only `id`, `content`, `metadata` and
`file_name`, yet `store_documents` reads `doc.chunk_index` for every chunk
and `rerank_results` reads `result.document.chunk_index` for every
candidate; hence on every non-empty input both fail with an
attribute-access error, and `hybrid_search` (with its default reranking)
fails likewise whenever the merged set is non-empty. -/
theorem chunk_index_attribute_failures :
    (∀ (env : Env) (docs : List DocumentChunk), docs ≠ [] →
      (storeDocuments env docs).1 = .error .attributeError) ∧
    (∀ (env : Env) (q : String) (results : List SearchResult) (tk : Option Nat),
      results ≠ [] → (rerankResults env q results tk).1 = .error .attributeError) ∧
    (∀ (env : Env) (q : SearchQuery) (tk : Nat) (merged : List SearchResult),
      hybridMerged env q = .ok merged → merged ≠ [] →
      (hybridSearch env q true tk).1 = .error .attributeError) := by
  have hrr : ∀ (env : Env) (q : String) (results : List SearchResult) (tk : Option Nat),
      results ≠ [] → (rerankResults env q results tk).1 = .error .attributeError := by
    intro env q results tk hne
    cases results with
    | nil => exact absurd rfl hne
    | cons r rs =>
      have hdocs : buildRerankDocs (r :: rs) = .error .attributeError := rfl
      simp [rerankResults, hdocs]
  refine ⟨?_, hrr, ?_⟩
  · intro env docs hne
    cases docs with
    | nil => exact absurd rfl hne
    | cons d ds =>
      have hbuild : buildUploadVectors env (d :: ds) = .error .attributeError := rfl
      simp [storeDocuments, hbuild]
  · intro env q tk merged hm hne
    have h := hrr env q.text merged (some tk) hne
    rcases hre : rerankResults env q.text merged (some tk) with ⟨res, calls⟩
    rw [hre] at h
    have hres : res = .error .attributeError := h
    simp [hybridSearch, hm, hre, hres]

/-- Witness for C4: a one-chunk store, a one-candidate rerank, and a
hybrid search whose merged set holds the single dense match of `env1` —
all three fail with the attribute error. -/
theorem chunk_index_attribute_failures_witness :
    ([chunkA] ≠ ([] : List DocumentChunk)) ∧
    (storeDocuments env0 [chunkA]).1 = .error .attributeError ∧
    (rerankResults env0 "mammals" [hybridRes chunkA 1] (some 5)).1 = .error .attributeError ∧
    hybridMerged env1 qHybrid = .ok [mergedA] ∧
    (hybridSearch env1 qHybrid true 5).1 = .error .attributeError := by
  refine ⟨by decide, ?_, ?_, by decide, ?_⟩
  · exact chunk_index_attribute_failures.1 env0 [chunkA] (by decide)
  · exact chunk_index_attribute_failures.2.1 env0 "mammals" [hybridRes chunkA 1] (some 5) (by decide)
  · exact chunk_index_attribute_failures.2.2 env1 qHybrid 5 [mergedA] (by decide) (by decide)

/-- C5 counterexample: with one dense match (so matches existed before
filtering) and a reranker that would score everything 0.5 (at or below
the threshold), hybrid search raises an attribute error on the missing
`chunk_index` before ever reranking — it does not return an empty list. -/
theorem empty_results_cex :
    hybridMerged env1 qHybrid = .ok [mergedA] ∧
    (hybridSearch env1 qHybrid true 5).1 = .error .attributeError ∧
    (hybridSearch env1 qHybrid true 5).1 ≠ .ok [] := by
  refine ⟨by decide, by decide, by decide⟩

/-- C5 (amended): an empty merged set short-circuits — hybrid search
returns an empty list without invoking the rerank API; and the threshold
filter maps a rerank response whose scores are all at or below 0.7 to an
empty list rather than an error.  (For a non-empty merged set the current
code fails on the missing `chunk_index` before reranking.) -/
theorem empty_results_are_outcomes (env : Env) (q : SearchQuery) (tk : Nat)
    (hdense : ∀ v k f, env.denseQuery v k f = [])
    (hsparse : ∀ s k f, env.sparseQuery s k f = [])
    (byId : List (String × SearchResult)) (rows : List RerankRow)
    (hids : ∀ row ∈ rows, (dictGet byId row.doc_id).isSome)
    (hlow : ∀ row ∈ rows, row.score ≤ SCORE_THRESHOLD) :
    (hybridSearch env q true tk = (.ok [], hybridBaseCalls) ∧
      Call.rerankApi ∉ hybridBaseCalls) ∧
    rerankFilter byId rows = .ok [] := by
  refine ⟨⟨?_, by decide⟩, ?_⟩
  · have hd : denseSearch env (denseSubQuery q) = [] := by
      simp [denseSearch, hdense]
    have hs : sparseSearch env (sparseSubQuery q) = [] := by
      simp [sparseSearch, hsparse]
    have hm : hybridMerged env q = .ok [] := by
      simp [hybridMerged, hd, hs, mergeHybridResults, mergeFold]
    simp [hybridSearch, hm, rerankResults]
  · have main : ∀ rs : List RerankRow, (∀ row ∈ rs, (dictGet byId row.doc_id).isSome) →
        (∀ row ∈ rs, row.score ≤ SCORE_THRESHOLD) → rerankFilter byId rs = .ok [] := by
      intro rs
      induction rs with
      | nil =>
        intro _ _
        rfl
      | cons row rs ih =>
        intro h1 h2
        obtain ⟨orig, horig⟩ := Option.isSome_iff_exists.mp (h1 row (List.mem_cons_self row rs))
        have hrest := ih (fun x hx => h1 x (List.mem_cons_of_mem row hx))
          (fun x hx => h2 x (List.mem_cons_of_mem row hx))
        have hth : ¬SCORE_THRESHOLD < row.score := not_lt.mpr (h2 row (List.mem_cons_self row rs))
        simp [rerankFilter, horig, hrest, hth]
    exact main rows hids hlow

/-- Witness for the amended C5 theorem: an empty-index environment, plus a
single below-threshold rerank row over one hybrid candidate. -/
theorem empty_results_are_outcomes_witness :
    (∀ v k f, env0.denseQuery v k f = []) ∧ (∀ s k f, env0.sparseQuery s k f = []) ∧
    (∀ row ∈ lowRows, (dictGet (resultsById [hybridRes chunkA 1]) row.doc_id).isSome) ∧
    (∀ row ∈ lowRows, row.score ≤ SCORE_THRESHOLD) ∧
    ((hybridSearch env0 qHybrid true 5 = (.ok [], hybridBaseCalls) ∧
      Call.rerankApi ∉ hybridBaseCalls) ∧
      rerankFilter (resultsById [hybridRes chunkA 1]) lowRows = .ok []) := by
  have hlow : ∀ row ∈ lowRows, row.score ≤ SCORE_THRESHOLD := by
    intro row hrow
    simp only [lowRows, List.mem_singleton] at hrow
    subst hrow
    norm_num [SCORE_THRESHOLD]
  refine ⟨fun _ _ _ => rfl, fun _ _ _ => rfl, by decide, hlow,
    empty_results_are_outcomes env0 qHybrid 5 (fun _ _ _ => rfl) (fun _ _ _ => rfl)
      (resultsById [hybridRes chunkA 1]) lowRows (by decide) hlow⟩

/-- C6: strategy isolation — a dense-strategy query issues only the query
embedding and the dense index query (never the sparse index nor the sparse
tokenizer) and wraps each native match score as `dense_score`;
symmetrically, a sparse-strategy query never touches the dense index or
the dense embedder and wraps scores as `sparse_score`. -/
theorem strategy_isolation (env : Env) (q1 q2 : SearchQuery)
    (h1 : q1.strategy = SearchStrategyType.DENSE)
    (h2 : q2.strategy = SearchStrategyType.SPARSE) :
    (Call.sparseQuery ∉ (search env q1).2 ∧ Call.tokenize ∉ (search env q1).2 ∧
      (search env q1).1 = .ok (denseSearch env q1) ∧
      ∀ r ∈ denseSearch env q1, ∃ m : QueryMatch,
        r.score =
          .search { dense_score := some m.score, sparse_score := none,
                    combined_score := none, rerank_score := none } ∧
        r.strategy_used = SearchStrategyType.DENSE) ∧
    (Call.denseQuery ∉ (search env q2).2 ∧ Call.embedQuery ∉ (search env q2).2 ∧
      (search env q2).1 = .ok (sparseSearch env q2) ∧
      ∀ r ∈ sparseSearch env q2, ∃ m : QueryMatch,
        r.score =
          .search { dense_score := none, sparse_score := some m.score,
                    combined_score := none, rerank_score := none } ∧
        r.strategy_used = SearchStrategyType.SPARSE) := by
  have hne : SearchStrategyType.SPARSE ≠ SearchStrategyType.DENSE := by decide
  have hs1 : search env q1 = (.ok (denseSearch env q1), denseSearchCalls) := by
    simp [search, h1]
  have hs2 : search env q2 = (.ok (sparseSearch env q2), sparseSearchCalls) := by
    simp [search, h2, hne]
  refine ⟨⟨?_, ?_, ?_, ?_⟩, ?_, ?_, ?_, ?_⟩
  · rw [hs1]
    show Call.sparseQuery ∉ denseSearchCalls
    decide
  · rw [hs1]
    show Call.tokenize ∉ denseSearchCalls
    decide
  · rw [hs1]
  · intro r hr
    simp only [denseSearch] at hr
    obtain ⟨m, hm, hmr⟩ := List.mem_map.mp hr
    exact ⟨m, by rw [← hmr]; rfl, by rw [← hmr]; rfl⟩
  · rw [hs2]
    show Call.denseQuery ∉ sparseSearchCalls
    decide
  · rw [hs2]
    show Call.embedQuery ∉ sparseSearchCalls
    decide
  · rw [hs2]
  · intro r hr
    simp only [sparseSearch] at hr
    obtain ⟨m, hm, hmr⟩ := List.mem_map.mp hr
    exact ⟨m, by rw [← hmr]; rfl, by rw [← hmr]; rfl⟩

/-- Witness for C6 at a concrete environment and concrete dense/sparse
queries. -/
theorem strategy_isolation_witness :
    (qDense.strategy = SearchStrategyType.DENSE) ∧
    (qSparse.strategy = SearchStrategyType.SPARSE) ∧
    ((Call.sparseQuery ∉ (search env0 qDense).2 ∧ Call.tokenize ∉ (search env0 qDense).2 ∧
      (search env0 qDense).1 = .ok (denseSearch env0 qDense) ∧
      ∀ r ∈ denseSearch env0 qDense, ∃ m : QueryMatch,
        r.score =
          .search { dense_score := some m.score, sparse_score := none,
                    combined_score := none, rerank_score := none } ∧
        r.strategy_used = SearchStrategyType.DENSE) ∧
    (Call.denseQuery ∉ (search env0 qSparse).2 ∧ Call.embedQuery ∉ (search env0 qSparse).2 ∧
      (search env0 qSparse).1 = .ok (sparseSearch env0 qSparse) ∧
      ∀ r ∈ sparseSearch env0 qSparse, ∃ m : QueryMatch,
        r.score =
          .search { dense_score := none, sparse_score := some m.score,
                    combined_score := none, rerank_score := none } ∧
        r.strategy_used = SearchStrategyType.SPARSE)) :=
  ⟨rfl, rfl, strategy_isolation env0 qDense qSparse rfl rfl⟩

/-- C7: dispatching on an unknown strategy value raises a `ValueError`
configuration error before issuing any collaborator call — no silent
fallback to a default strategy. -/
theorem invalid_strategy_is_config_error (env : Env) (q : SearchQuery)
    (h1 : q.strategy ≠ SearchStrategyType.DENSE)
    (h2 : q.strategy ≠ SearchStrategyType.SPARSE)
    (h3 : q.strategy ≠ SearchStrategyType.HYBRID) :
    search env q = (.error .valueError, []) := by
  simp [search, h1, h2, h3]

/-- Witness for C7 with the strategy value `keyword`. -/
theorem invalid_strategy_is_config_error_witness :
    (qBad.strategy ≠ SearchStrategyType.DENSE) ∧
    (qBad.strategy ≠ SearchStrategyType.SPARSE) ∧
    (qBad.strategy ≠ SearchStrategyType.HYBRID) ∧
    search env0 qBad = (.error .valueError, []) :=
  ⟨by decide, by decide, by decide,
    invalid_strategy_is_config_error env0 qBad (by decide) (by decide) (by decide)⟩

/-- C8: document identity derivation is deterministic — a chunk with a
truthy (non-empty) id keeps it unchanged, and chunks without one get an id
that is a pure function of their content, so identical content always
yields the identical id (the index then stores one logical record per id,
upsert being idempotent by id per the gateway contract). -/
theorem document_identity_derivation (md5 : String → String) :
    (∀ doc : DocumentChunk, doc.id ≠ "" → generateDocumentId md5 doc = doc.id) ∧
    (∀ d1 d2 : DocumentChunk, d1.id = "" → d2.id = "" → d1.content = d2.content →
      generateDocumentId md5 d1 = generateDocumentId md5 d2) := by
  constructor
  · intro doc h
    simp [generateDocumentId, h]
  · intro d1 d2 h1 h2 hc
    simp [generateDocumentId, h1, h2, hc]

/-- Witness for C8: a chunk with id `a` keeps it; two id-less chunks with
equal content (but different other fields) get the same derived id. -/
theorem document_identity_derivation_witness :
    (chunkA.id ≠ "") ∧ generateDocumentId env0.md5hex chunkA = chunkA.id ∧
    (({ id := "", content := "same text" } : DocumentChunk).id = "") ∧
    generateDocumentId env0.md5hex { id := "", content := "same text" } =
      generateDocumentId env0.md5hex { id := "", content := "same text", file_name := some "f.pdf" } := by
  refine ⟨by decide, ?_, rfl, ?_⟩
  · exact (document_identity_derivation env0.md5hex).1 chunkA (by decide)
  · exact (document_identity_derivation env0.md5hex).2 _ _ rfl rfl rfl

/-- C9 (code bug): the filter set of the sparse encoder is {101, 102, 103, 0} =
[CLS], [SEP], [MASK], [PAD] — it omits the unknown-token id [UNK] = 100,
despite the inline comment of the code itself claiming to skip [UNK].  For a text whose
tokenization is [CLS] [UNK] [SEP] (ids [101, 100, 102]) the unknown token
id 100 IS emitted with its frequency, while the [MASK] id 103 — which a
tokenizer never produces — is what gets excluded instead. -/
theorem sparse_encoder_emits_unk :
    tokenizeToSparseVector unkTokenizer "oovword" = { indices := [100], values := [1] } ∧
    100 ∈ (tokenizeToSparseVector unkTokenizer "oovword").indices ∧
    sparseHistogram [101, 100, 103, 102] = { indices := [100], values := [1] } := by
  refine ⟨by decide, by decide, by decide⟩

/-- C10: with reranking disabled, the final return statement reads the
never-bound local `sorted_results` (the sort that once bound it is
commented out), so hybrid search always raises instead of returning the
merged results: when the merge itself raises, that earlier error
propagates, and otherwise the unbound-local error is raised. -/
theorem hybrid_no_rerank_unbound (env : Env) (q : SearchQuery) (tk : Nat) :
    (∃ e, (hybridSearch env q false tk).1 = .error e) ∧
    (∀ merged, hybridMerged env q = .ok merged →
      (hybridSearch env q false tk).1 = .error .unboundLocalError) := by
  constructor
  · cases hm : hybridMerged env q with
    | error e => exact ⟨e, by simp [hybridSearch, hm]⟩
    | ok merged => exact ⟨.unboundLocalError, by simp [hybridSearch, hm]⟩
  · intro merged hm
    simp [hybridSearch, hm]

/-- Witness for C10 at a concrete environment (whose merge succeeds with
an empty set): the unbound-local error is raised. -/
theorem hybrid_no_rerank_unbound_witness :
    (∃ e, (hybridSearch env0 qHybrid false 5).1 = .error e) ∧
    (∀ merged, hybridMerged env0 qHybrid = .ok merged →
      (hybridSearch env0 qHybrid false 5).1 = .error .unboundLocalError) :=
  hybrid_no_rerank_unbound env0 qHybrid 5
